import Mathlib

/-!
Verification development for the async LLM itinerary worker
(index.js / jobs.js / llm.js / firestore.js).

The JavaScript source is shallowly embedded below:
pure functions become Lean functions; external effects (the KV queue
store, the Firestore document store, the LLM HTTP endpoint, timers)
are modelled by explicit oracles that fix, per call site, the outcome
the external world would produce.  Timestamps are modelled as integer
milliseconds.  JavaScript numbers are modelled as rationals.
-/

/-- A parsed JSON value (the result of a successful JSON.parse).
JavaScript numbers are modelled as rationals; objects as ordered
key/value lists. -/
inductive Json where
  | str (s : String)
  | num (q : Rat)
  | bool (b : Bool)
  | null
  | arr (elems : List Json)
  | obj (fields : List (String × Json))

/-- One Zod validation issue: a path into the value plus a message
(array indices rendered as decimal strings, as in path.join in jobs.js). -/
structure ZodIssue where
  path : List String
  message : String
deriving DecidableEq, Repr

/-- The JavaScript typeof-style name Zod reports for a value. -/
def Json.typeName : Json → String
  | .str _ => "string"
  | .num _ => "number"
  | .bool _ => "boolean"
  | .null => "null"
  | .arr _ => "array"
  | .obj _ => "object"

/-- Activity shape of the Zod schema in jobs.js:
z.object with time, description, location (all strings). -/
structure Activity where
  time : String
  description : String
  location : String

/-- DayItinerary shape of the Zod schema in jobs.js:
day is z.number().int().min(1), theme a string, activities a
non-empty array of Activity. -/
structure DayItinerary where
  day : Rat
  theme : String
  activities : List Activity

/-- Property lookup on a JSON object field list (first matching key). -/
def getField (fields : List (String × Json)) (k : String) : Option Json :=
  (fields.find? (fun p => p.1 == k)).map (fun p => p.2)

/-- Combine two Zod sub-parses, concatenating the issue lists when both
fail (Zod collects all issues of an object or array rather than
stopping at the first). -/
def zipIssues (a : Except (List ZodIssue) α) (b : Except (List ZodIssue) β) :
    Except (List ZodIssue) (α × β) :=
  match a, b with
  | .ok x, .ok y => .ok (x, y)
  | .error e, .ok _ => .error e
  | .ok _, .error f => .error f
  | .error e, .error f => .error (e ++ f)

/-- z.string() at a given path. -/
def parseStr (path : List String) : Json → Except (List ZodIssue) String
  | .str s => .ok s
  | v => .error [⟨path, "Expected string, received " ++ v.typeName⟩]

/-- z.number().int().min(1) at a given path.  Zod runs every check of
the chain, collecting one issue per failed check. -/
def parseDayNum (path : List String) : Json → Except (List ZodIssue) Rat
  | .num q =>
    match (if q.den = 1 then [] else [⟨path, "Expected integer, received float"⟩]) ++
          (if 1 ≤ q then [] else [⟨path, "Number must be greater than or equal to 1"⟩]) with
    | [] => .ok q
    | issues => .error issues
  | v => .error [⟨path, "Expected number, received " ++ v.typeName⟩]

/-- Parse a required object property: a missing key is the Zod
"Required" issue at the property path. -/
def parseField (p : List String → Json → Except (List ZodIssue) α)
    (path : List String) (fields : List (String × Json)) (k : String) :
    Except (List ZodIssue) α :=
  match getField fields k with
  | none => .error [⟨path ++ [k], "Required"⟩]
  | some v => p (path ++ [k]) v

/-- Parse every element of a JSON array (element i at path ++ [i]),
collecting the issues of all failing elements in order. -/
def parseElems (p : List String → Json → Except (List ZodIssue) α)
    (path : List String) : List Json → Nat → Except (List ZodIssue) (List α)
  | [], _ => .ok []
  | x :: rest, i =>
    (zipIssues (p (path ++ [toString i]) x) (parseElems p path rest (i + 1))).map
      (fun pr => pr.1 :: pr.2)

/-- z.array(p).min(1) at a given path. -/
def parseArr (p : List String → Json → Except (List ZodIssue) α)
    (path : List String) : Json → Except (List ZodIssue) (List α)
  | .arr l =>
    match parseElems p path l 0 with
    | .ok elems =>
      if elems.length < 1 then
        .error [⟨path, "Array must contain at least 1 element(s)"⟩]
      else .ok elems
    | .error e => .error e
  | v => .error [⟨path, "Expected array, received " ++ v.typeName⟩]

/-- The Activity object schema (jobs.js lines 75 to 79). -/
def parseActivity (path : List String) : Json → Except (List ZodIssue) Activity
  | .obj fields =>
    match zipIssues
        (zipIssues (parseField parseStr path fields "time")
                   (parseField parseStr path fields "description"))
        (parseField parseStr path fields "location") with
    | .ok ((t, d), l) => .ok ⟨t, d, l⟩
    | .error e => .error e
  | v => .error [⟨path, "Expected object, received " ++ v.typeName⟩]

/-- The DayItinerary object schema (jobs.js lines 80 to 84). -/
def parseDayItinerary (path : List String) : Json → Except (List ZodIssue) DayItinerary
  | .obj fields =>
    match zipIssues
        (zipIssues (parseField parseDayNum path fields "day")
                   (parseField parseStr path fields "theme"))
        (parseField (parseArr parseActivity) path fields "activities") with
    | .ok ((d, th), acts) => .ok ⟨d, th, acts⟩
    | .error e => .error e
  | v => .error [⟨path, "Expected object, received " ++ v.typeName⟩]

/-- ItinerarySchema.parse (jobs.js line 85): a non-empty array of
DayItinerary.  On failure the error carries every collected issue. -/
def ItinerarySchema.parse (j : Json) : Except (List ZodIssue) (List DayItinerary) :=
  parseArr parseDayItinerary [] j

/-- path.join with dots, as in the ZodError formatting of jobs.js. -/
def joinDot : List String → String
  | [] => ""
  | [a] => a
  | a :: rest => a ++ "." ++ joinDot rest

/-- One line of the normalized validation failure message. -/
def issueLine (e : ZodIssue) : String :=
  joinDot e.path ++ ": " ++ e.message

/-- errors.join with a semicolon separator, as in jobs.js. -/
def joinSemi : List String → String
  | [] => ""
  | [a] => a
  | a :: rest => a ++ "; " ++ joinSemi rest

/-- The message jobs.js builds for a ZodError (line 154). -/
def validationMessage (issues : List ZodIssue) : String :=
  "Validation error: " ++ joinSemi (issues.map issueLine)

/-- Serialization of a parsed Activity back to JSON, as produced by
Zod (which rebuilds the object from the declared shape, stripping
unknown keys) and then JSON.stringify in firestore.js. -/
def serializeActivity (a : Activity) : Json :=
  .obj [("time", .str a.time), ("description", .str a.description),
        ("location", .str a.location)]

/-- Serialization of a parsed DayItinerary back to JSON. -/
def serializeDay (d : DayItinerary) : Json :=
  .obj [("day", .num d.day), ("theme", .str d.theme),
        ("activities", .arr (d.activities.map serializeActivity))]

/-- Serialization of a parsed itinerary back to JSON. -/
def serializeItinerary (v : List DayItinerary) : Json :=
  .arr (v.map serializeDay)

/-- A serialized activity object carries exactly the declared keys. -/
def activityDeclared : Json → Bool
  | .obj fields => fields.map Prod.fst == ["time", "description", "location"]
  | _ => false

/-- A serialized day object carries exactly the declared keys, and its
activities only declared keys in turn. -/
def dayDeclared : Json → Bool
  | .obj fields =>
    (fields.map Prod.fst == ["day", "theme", "activities"]) &&
    (match getField fields "activities" with
     | some (.arr l) => l.all activityDeclared
     | _ => false)
  | _ => false

/-- A serialized itinerary carries only declared keys at every level. -/
def itineraryDeclared : Json → Bool
  | .arr l => l.all dayDeclared
  | _ => false

/-!
## Generation client (llm.js)

fetchWithRetry loops over attempts.  The outcome of the attempt number
n is fixed by an oracle responses n.  An ok response is abstracted to
the eventual message content of its first choice (none models a
missing or empty content).
-/

/-- The outcome of one fetch call, as observed by fetchWithRetry. -/
inductive FetchOutcome where
  | ok (content : Option String)
  | httpStatus (code : Nat)
  | netError (msg : String)
  | abort

/-- What the try block of one loop iteration of fetchWithRetry does:
return the response, throw an exception (with its name and message),
or fall through to the backoff code. -/
inductive TryStep where
  | done (content : Option String)
  | thrown (name : String) (msg : String)
  | fellThrough

/-- The try block of fetchWithRetry (llm.js lines 21 to 29).  Note the
throw for a non-retryable status sits inside this same try block. -/
def fetchTryBody (o : FetchOutcome) (retries attempt : Nat) : TryStep :=
  match o with
  | .ok c => .done c
  | .httpStatus code =>
    if (!(code == 429 || 500 ≤ code)) || retries ≤ attempt then
      .thrown "Error" ("LLM request failed: HTTP " ++ toString code)
    else .fellThrough
  | .netError m => .thrown "TypeError" m
  | .abort => .thrown "AbortError" "The operation was aborted"

/-- Result of fetchWithRetry together with the number of fetch calls
made and the number of backoff sleeps performed. -/
structure FetchResult where
  result : Except String (Option String)
  fetchCalls : Nat
  sleeps : Nat
deriving Repr

/-- The while loop of fetchWithRetry (llm.js lines 20 to 41): run the
try body, dispatch the catch clause (AbortError rethrown with the
timeout message, anything else rethrown only once attempt reaches
retries), otherwise sleep with backoff and retry.  fuel bounds the
recursion and is always at least retries + 1 - attempt at entry. -/
def fetchWithRetryGo (responses : Nat → FetchOutcome) (retries : Nat) :
    Nat → Nat → FetchResult
  | _, 0 => ⟨.error "out of fuel", 0, 0⟩
  | attempt, fuel + 1 =>
    match fetchTryBody (responses attempt) retries attempt with
    | .done c => ⟨.ok c, 1, 0⟩
    | .thrown name msg =>
      if name == "AbortError" then ⟨.error "LLM request aborted by timeout", 1, 0⟩
      else if retries ≤ attempt then ⟨.error msg, 1, 0⟩
      else
        match fetchWithRetryGo responses retries (attempt + 1) fuel with
        | ⟨r, calls, sleeps⟩ => ⟨r, calls + 1, sleeps + 1⟩
    | .fellThrough =>
      match fetchWithRetryGo responses retries (attempt + 1) fuel with
      | ⟨r, calls, sleeps⟩ => ⟨r, calls + 1, sleeps + 1⟩

/-- fetchWithRetry (llm.js lines 14 to 42) with a given retries
option, starting at attempt 0. -/
def fetchWithRetry (responses : Nat → FetchOutcome) (retries : Nat) : FetchResult :=
  fetchWithRetryGo responses retries 0 (retries + 1)

/-- extractFirstJsonArray (llm.js lines 47 to 59), inner scan: given
the characters from the first opening bracket on and the current
nesting depth, return how many characters to keep (through the closing
bracket at which depth returns to zero), or none if the scan runs out. -/
def scanClose : List Char → Int → Option Nat
  | [], _ => none
  | c :: rest, depth =>
    if c = '[' then (scanClose rest (depth + 1)).map (· + 1)
    else if c = ']' then
      if depth - 1 = 0 then some 1
      else (scanClose rest (depth - 1)).map (· + 1)
    else (scanClose rest depth).map (· + 1)

/-- extractFirstJsonArray (llm.js lines 47 to 59) over a character
list: find the first opening bracket, then bracket-match from there;
either failure throws. -/
def extractFirstJsonArray (s : List Char) : Except String (List Char) :=
  match s.dropWhile (fun c => c ≠ '[') with
  | [] => .error "No JSON array start found"
  | suffix =>
    match scanClose suffix 0 with
    | some n => .ok (suffix.take n)
    | none => .error "No matching ] found for JSON array"

/-- generateItinerary (llm.js lines 70 to 117) downstream of the fetch:
read the first choice content, try a direct JSON parse of the trimmed
text, else extract the first bracket-balanced array and parse that.
jsonParse is an oracle for the JSON.parse builtin (none models a
SyntaxError). -/
def generateItinerary (jsonParse : String → Option Json)
    (responses : Nat → FetchOutcome) (retries : Nat) :
    Except String Json × Nat × Nat :=
  match fetchWithRetry responses retries with
  | ⟨.error e, calls, sleeps⟩ => (.error e, calls, sleeps)
  | ⟨.ok none, calls, sleeps⟩ => (.error "Empty LLM response", calls, sleeps)
  | ⟨.ok (some raw), calls, sleeps⟩ =>
    let t := raw.trim
    match jsonParse t with
    | some v => (.ok v, calls, sleeps)
    | none =>
      match extractFirstJsonArray t.toList with
      | .error e => (.error e, calls, sleeps)
      | .ok chars =>
        match jsonParse (String.mk chars) with
        | some v => (.ok v, calls, sleeps)
        | none => (.error "Unexpected token in JSON", calls, sleeps)

/-- Contribution of one character to the bracket nesting depth. -/
def charDepthDelta (c : Char) : Int :=
  if c = '[' then 1 else if c = ']' then -1 else 0

/-- Modelled from the specification wording of the bracket scan: the
first position (one-based count of characters consumed) at which the
cumulative bracket nesting depth returns to zero. -/
def specFindZero : Int → List Char → Option Nat
  | _, [] => none
  | d, c :: rest =>
    if d + charDepthDelta c = 0 then some 1
    else (specFindZero (d + charDepthDelta c) rest).map (· + 1)

/-- Modelled from the specification wording of extraction: the exact
substring from the first opening bracket through the position at which
the counting of bracket characters first returns depth to zero; a hard
failure when there is no opening bracket or depth never returns to
zero. -/
def specExtract (s : List Char) : Except String (List Char) :=
  match s.dropWhile (fun c => c ≠ '[') with
  | [] => .error "No JSON array start found"
  | suffix =>
    match specFindZero 0 suffix with
    | some n => .ok (suffix.take n)
    | none => .error "No matching ] found for JSON array"

/-!
## Queue records, durable writes and the sweep (jobs.js, firestore.js)
-/

/-- One queue record as stored (JSON-serialized) in the KV store.
Absent JSON keys are modelled as none.  Timestamps are integer
milliseconds. -/
structure JobRecord where
  destination : String
  durationDays : Rat
  status : String
  createdAt : Int
  lockedAt : Option Int
  error : Option String
deriving Repr

/-- The argument record of saveItinerary: itinerary is omitted from
the update entirely when none. -/
structure SavePayload where
  status : String
  updatedAt : Int
  completedAt : Option Int
  error : Option String
  itinerary : Option Json

/-- The wire mapping performed by saveItinerary (firestore.js lines 99
to 134): completedAt and error are written as null when falsy (for
error, the empty string is falsy). -/
def saveItineraryFields (status : String) (itinerary : Option Json)
    (updatedAt : Int) (completedAt : Option Int) (error : Option String) :
    SavePayload :=
  { status := status
    updatedAt := updatedAt
    completedAt := completedAt
    error := match error with
      | some e => if e = "" then none else some e
      | none => none
    itinerary := itinerary }

/-- Externally visible store operations performed while processing,
in program order. -/
inductive Event where
  | kvPut (key : String) (record : JobRecord)
  | kvDelete (key : String)
  | docWrite (key : String) (payload : SavePayload)

/-- Outcome of the KV read plus JSON.parse at the head of the loop
body (jobs.js lines 103 to 105).  malformed models a stored value on
which JSON.parse throws; throws models a rejected KV read. -/
inductive KvGetOutcome where
  | absent
  | malformed
  | record (r : JobRecord)
  | throws (msg : String)

/-- Oracle fixing, for one queue key, the outcomes of every external
call its processing could make, plus the wall-clock instants the code
would observe.  gen abstracts the whole awaited
runWithTimeout(generateItinerary(...)) call of jobs.js lines 122 to
131: ok is the parsed JSON the client returned, error the message of
whatever it threw (timeout, exhausted retries, network, parse). -/
structure JobWorld where
  kvGet : KvGetOutcome
  putStale : Except String Unit
  putLock : Except String Unit
  gen : Except String Json
  saveDoc : Except String Unit
  kvDelete : Except String Unit
  saveFailedDoc : Except String Unit
  putFailed : Except String Unit
  lockTime : Int
  successTime : Int
  failTime : Int

/-- The stale-lock test of jobs.js line 108: in-progress and locked
more than 600000 milliseconds ago.  A missing lockedAt makes the date
arithmetic NaN, so the comparison is false. -/
def isStale (now : Int) (r : JobRecord) : Bool :=
  r.status == "in-progress" &&
    (match r.lockedAt with
     | some t => decide (600000 < now - t)
     | none => false)

/-- The record after lock acquisition (jobs.js lines 116 to 117). -/
def lockedRecord (w : JobWorld) (r : JobRecord) : JobRecord :=
  { r with status := "in-progress", lockedAt := some w.lockTime }

/-- What the catch clause of jobs.js line 149 receives. -/
inductive JobErr where
  | genErr (msg : String)
  | zodErr (issues : List ZodIssue)
  | saveErr (msg : String)
  | delErr (msg : String)

/-- The durable write payload of the success path (jobs.js lines 137
to 144): one shared timestamp for updatedAt and completedAt, the
Zod-parsed itinerary, null error. -/
def completedPayload (w : JobWorld) (v : List DayItinerary) : SavePayload :=
  saveItineraryFields "completed" (some (serializeItinerary v))
    w.successTime (some w.successTime) none

/-- The try block of jobs.js lines 120 to 148: generation, Zod
validation, durable success write, then KV cleanup.  On a throw the
events already performed are returned with the caught error. -/
def tryPhase (jobId : String) (w : JobWorld) :
    Except (JobErr × List Event) (List Event) :=
  match w.gen with
  | .error m => .error (.genErr m, [])
  | .ok raw =>
    match ItinerarySchema.parse raw with
    | .error issues => .error (.zodErr issues, [])
    | .ok v =>
      match w.saveDoc with
      | .error m => .error (.saveErr m, [])
      | .ok _ =>
        match w.kvDelete with
        | .error m => .error (.delErr m, [Event.docWrite jobId (completedPayload w v)])
        | .ok _ => .ok [Event.docWrite jobId (completedPayload w v), Event.kvDelete jobId]

/-- The message normalization of jobs.js lines 152 to 155: a ZodError
is rendered with one path-qualified line per issue; any other error
contributes its message, defaulting to Unknown error when empty. -/
def errMessage : JobErr → String
  | .zodErr issues => validationMessage issues
  | .genErr m => if m = "" then "Unknown error" else m
  | .saveErr m => if m = "" then "Unknown error" else m
  | .delErr m => if m = "" then "Unknown error" else m

/-- The catch clause of jobs.js lines 149 to 174: best-effort durable
failed write (its own failure appends a persistError note instead),
then the queue record is marked failed.  The final KV put sits outside
any try, so its failure is an uncaught exception. -/
def handleFailure (jobId : String) (w : JobWorld) (locked : JobRecord)
    (e : JobErr) : List Event × Option String :=
  match w.saveFailedDoc with
  | .ok _ =>
    match w.putFailed with
    | .ok _ =>
      ([Event.docWrite jobId
          (saveItineraryFields "failed" none w.failTime none (some (errMessage e))),
        Event.kvPut jobId { locked with status := "failed", error := some (errMessage e) }],
       none)
    | .error m =>
      ([Event.docWrite jobId
          (saveItineraryFields "failed" none w.failTime none (some (errMessage e)))],
       some m)
  | .error pe =>
    match w.putFailed with
    | .ok _ =>
      ([Event.kvPut jobId
          { locked with
            status := "failed"
            error := some (errMessage e ++ " | persistError: " ++ pe) }],
       none)
    | .error m => ([], some m)

/-- jobs.js lines 113 to 174 for one record already past the stale
reset: skip unless pending, lock, run the try block, on a caught error
run the catch clause. -/
def processEligible (jobId : String) (w : JobWorld) (r : JobRecord) :
    List Event × Option String :=
  if r.status = "pending" then
    match w.putLock with
    | .error m => ([], some m)
    | .ok _ =>
      match tryPhase jobId w with
      | .ok evs => (Event.kvPut jobId (lockedRecord w r) :: evs, none)
      | .error (e, evs) =>
        match handleFailure jobId w (lockedRecord w r) e with
        | (evs2, x) => (Event.kvPut jobId (lockedRecord w r) :: (evs ++ evs2), x)
  else ([], none)

/-- One iteration of the loop of processPendingJobs (jobs.js lines 102
to 174): read and parse the record, skip a missing one, reset a stale
lock (clearing the error), then process if pending.  The second
component is the message of an uncaught exception, none when the
iteration completes. -/
def processJob (now : Int) (jobId : String) (w : JobWorld) :
    List Event × Option String :=
  match w.kvGet with
  | .throws m => ([], some m)
  | .absent => ([], none)
  | .malformed => ([], some "Unexpected token in JSON")
  | .record r =>
    if isStale now r then
      match w.putStale with
      | .error m => ([], some m)
      | .ok _ =>
        match processEligible jobId w { r with status := "pending", error := none } with
        | (evs, x) =>
          (Event.kvPut jobId { r with status := "pending", error := none } :: evs, x)
    else processEligible jobId w r

/-- processPendingJobs (jobs.js lines 98 to 176): iterate over the
listed keys in order; an uncaught exception aborts the whole sweep,
leaving the remaining records unprocessed. -/
def processPendingJobs (now : Int) :
    List (String × JobWorld) → List Event × Option String
  | [] => ([], none)
  | (jobId, w) :: rest =>
    match processJob now jobId w with
    | (evs, some m) => (evs, some m)
    | (evs, none) =>
      match processPendingJobs now rest with
      | (evs2, x) => (evs ++ evs2, x)

/-!
## Submission endpoint (index.js POST branch)
-/

/-- Result of the POST handler: a client error response, an accepted
job (202 with the queue record it wrote), or an uncaught exception. -/
inductive PostOutcome where
  | clientError (status : Nat) (body : String)
  | accepted (jobId : String) (record : JobRecord)
  | thrown (msg : String)

/-- Property access used by the destructuring of index.js line 15 on a
non-null JSON value: only objects have own properties here. -/
def getProp : Json → String → Option Json
  | .obj fields, k => getField fields k
  | _, _ => none

/-- The POST branch of index.js lines 8 to 31.  The argument is the
outcome of request.json (none models invalid JSON).  Destructuring a
null payload throws.  Only typeof checks guard the fields: destination
must be a string and durationDays a number; nothing else is checked. -/
def handlePost (jobId : String) (now : Int) : Option Json → PostOutcome
  | none => .clientError 400 "Invalid JSON"
  | some .null => .thrown "Cannot destructure property of null"
  | some payload =>
    match getProp payload "destination", getProp payload "durationDays" with
    | some (.str d), some (.num q) =>
      .accepted jobId
        { destination := d, durationDays := q, status := "pending",
          createdAt := now, lockedAt := none, error := none }
    | _, _ => .clientError 400 "Bad Request"

/-!
## Shared concrete fixtures
-/

/-- A well-formed raw itinerary as the generation client could return it. -/
def exampleRaw : Json :=
  .arr [.obj [("day", .num 1), ("theme", .str "Old town"),
              ("activities", .arr [.obj [("time", .str "09:00"),
                                         ("description", .str "walk"),
                                         ("location", .str "center")]])]]

/-- The parsed form of exampleRaw. -/
def exampleParsed : List DayItinerary :=
  [⟨1, "Old town", [⟨"09:00", "walk", "center"⟩]⟩]

/-- A pending queue record. -/
def examplePending : JobRecord :=
  ⟨"Tokyo, Japan", 5, "pending", 0, none, none⟩

/-- A world in which every external call succeeds. -/
def exampleWorldOk : JobWorld :=
  ⟨.record examplePending, .ok (), .ok (), .ok exampleRaw,
   .ok (), .ok (), .ok (), .ok (), 10, 20, 30⟩

/-- C1: the specification says a non-retryable HTTP status (a 4xx
other than 429, e.g. a persistent 404) makes fetchWithRetry fail
immediately on the first attempt with zero retries and zero backoff
sleeps.  The code contradicts this (and its own docstring, which says
it retries only on 429, 5xx and network errors, and the comment
calling the non-retryable throw a bubbled failure): the throw sits
inside the try block, its own catch clause swallows it while attempt
is below retries, so a persistent 404 with the default retries = 3 is
fetched 4 times with 3 backoff sleeps before failing, both in
fetchWithRetry and through generateItinerary. -/
theorem fetchWithRetry_retries_persistent_404 :
    fetchWithRetry (fun _ => .httpStatus 404) 3 =
      ⟨.error "LLM request failed: HTTP 404", 4, 3⟩ ∧
    generateItinerary (fun _ => none) (fun _ => .httpStatus 404) 3 =
      (.error "LLM request failed: HTTP 404", 4, 3) := by
  exact ⟨rfl, rfl⟩

/-- C2 counterexample: in a concrete run whose generation attempt
fails, the terminal durable write performed by the sweep carries
status failed and a non-null error, but completedAt is null (the code
passes completedAt: null on the failure path), not the failure
timestamp 30 carried by updatedAt, refuting the claim at this input. -/
theorem failedWrite_completedAt_counterexample :
    processJob 1000 "job1" { exampleWorldOk with gen := .error "boom" } =
      ([Event.kvPut "job1" ⟨"Tokyo, Japan", 5, "in-progress", 0, some 10, none⟩,
        Event.docWrite "job1"
          { status := "failed", updatedAt := 30, completedAt := none,
            error := some "boom", itinerary := none },
        Event.kvPut "job1" ⟨"Tokyo, Japan", 5, "failed", 0, some 10, some "boom"⟩],
       none) ∧
    (SavePayload.completedAt
      { status := "failed", updatedAt := 30, completedAt := none,
        error := some "boom", itinerary := none } ≠ some 30) := by
  exact ⟨rfl, by simp⟩

/-- C3 counterexample: a queue record whose stored value JSON.parse
cannot parse sits before a processable pending record.  The parse
throw happens outside the try block of the sweep, so the sweep throws
(the error propagates to the caller) and the second, eligible record
is never processed: a concrete refutation of the claim that every
error is caught and every remaining eligible record still processed. -/
theorem sweep_propagation_counterexample :
    processPendingJobs 1000
      [("a", { exampleWorldOk with kvGet := .malformed }), ("b", exampleWorldOk)] =
      ([], some "Unexpected token in JSON") ∧
    (processJob 1000 "b" exampleWorldOk).1.length = 3 := by
  exact ⟨rfl, rfl⟩

/-- C8 counterexample: a request with an empty destination and
durationDays 0 (violating both data-model constraints of the claim) is
accepted with a 202 and a queue record is created, because the POST
handler only checks typeof destination is string and typeof
durationDays is number. -/
theorem submission_accepts_invalid_counterexample :
    handlePost "job1" 0
      (some (.obj [("destination", .str ""), ("durationDays", .num 0)])) =
      .accepted "job1" ⟨"", 0, "pending", 0, none, none⟩ := by
  exact rfl

/-- The head of a non-empty dropWhile result falsifies the predicate. -/
theorem dropWhileHeadFalse (p : Char → Bool) (l : List Char) (c : Char) (t : List Char)
    (h : l.dropWhile p = c :: t) : p c = false := by
  induction l with
  | nil => simp [List.dropWhile] at h
  | cons x xs ih =>
    rw [List.dropWhile_cons] at h
    by_cases hx : p x = true
    · simp [hx] at h
      exact ih h
    · simp [hx] at h
      rw [← h.1]
      simpa using hx

/-- From any depth of at least one, the bracket scan of the code stops
exactly where the cumulative depth first returns to zero. -/
theorem scanClose_eq_specFindZero (l : List Char) : ∀ d : Int, 1 ≤ d →
    scanClose l d = specFindZero d l := by
  induction l with
  | nil => intro d _; rfl
  | cons c rest ih =>
    intro d hd
    by_cases hb : c = '['
    · subst hb
      have hne : ¬ (d + (1 : Int) = 0) := by omega
      simp [scanClose, specFindZero, charDepthDelta, hne, ih (d + 1) (by omega)]
    · by_cases hc : c = ']'
      · subst hc
        by_cases hone : d = 1
        · subst hone
          simp [scanClose, specFindZero, charDepthDelta]
        · have h1 : ¬ (d - 1 = 0) := by omega
          have h2 : d + (-1 : Int) = d - 1 := by omega
          simp [scanClose, specFindZero, charDepthDelta, hb, h1, h2,
            ih (d - 1) (by omega)]
      · have h0 : ¬ (d = 0) := by omega
        simp [scanClose, specFindZero, charDepthDelta, hb, hc, h0, ih d hd]

/-- C7: extractFirstJsonArray returns exactly the substring from the
first opening bracket through the position at which the bracket
nesting depth (counting opening and closing square brackets) first
returns to zero, and throws when there is no opening bracket or the
depth never returns to zero: it coincides on every string with the
specification-worded extractor specExtract. -/
theorem extractFirstJsonArray_refines_spec (s : List Char) :
    extractFirstJsonArray s = specExtract s := by
  unfold extractFirstJsonArray specExtract
  cases hdw : s.dropWhile (fun c => c ≠ '[') with
  | nil => rfl
  | cons c t =>
    have hc : c = '[' := by
      have := dropWhileHeadFalse _ s c t hdw
      simpa using this
    subst hc
    have hscan : scanClose ('[' :: t) 0 = specFindZero 0 ('[' :: t) := by
      have hne : ¬ ((0 : Int) + 1 = 0) := by omega
      simp [scanClose, specFindZero, charDepthDelta, hne,
        scanClose_eq_specFindZero t 1 (by omega)]
    show (match scanClose ('[' :: t) 0 with
          | some n => Except.ok (List.take n ('[' :: t))
          | none => Except.error "No matching ] found for JSON array") =
        (match specFindZero 0 ('[' :: t) with
          | some n => Except.ok (List.take n ('[' :: t))
          | none => Except.error "No matching ] found for JSON array")
    rw [hscan]

/-- Unfolding equation for one sweep step. -/
theorem processPendingJobs_cons (now : Int) (a : String) (b : JobWorld)
    (rest : List (String × JobWorld)) :
    processPendingJobs now ((a, b) :: rest) =
      match processJob now a b with
      | (evs, some m) => (evs, some m)
      | (evs, none) =>
        match processPendingJobs now rest with
        | (evs2, x) => (evs ++ evs2, x) := rfl

/-- A record whose iteration does nothing leaves the sweep unchanged. -/
theorem processPendingJobs_skip (now : Int) (a : String) (b : JobWorld)
    (rest : List (String × JobWorld)) (h : processJob now a b = ([], none)) :
    processPendingJobs now ((a, b) :: rest) = processPendingJobs now rest := by
  rw [processPendingJobs_cons, h]
  cases hr : processPendingJobs now rest with
  | mk evs x => simp

/-- C10: a key listed by the queue enumeration whose value is absent
when read is silently skipped: its iteration performs no store
operation and raises nothing, and the whole sweep behaves exactly as
if the key were not listed, continuing with all remaining records. -/
theorem sweep_skips_missing_record (now : Int) (jobs1 jobs2 : List (String × JobWorld))
    (jobId : String) (w : JobWorld) (h : w.kvGet = .absent) :
    processJob now jobId w = ([], none) ∧
    processPendingJobs now (jobs1 ++ (jobId, w) :: jobs2) =
      processPendingJobs now (jobs1 ++ jobs2) := by
  have hj : processJob now jobId w = ([], none) := by
    unfold processJob
    rw [h]
  refine ⟨hj, ?_⟩
  induction jobs1 with
  | nil =>
    simp only [List.nil_append]
    exact processPendingJobs_skip now jobId w jobs2 hj
  | cons p rest ih =>
    cases p with
    | mk a b =>
      simp only [List.cons_append]
      rw [processPendingJobs_cons, processPendingJobs_cons]
      cases hab : processJob now a b with
      | mk evs o =>
        cases o with
        | some m => rfl
        | none => rw [ih]

/-- C4: an in-progress record locked more than 600 seconds (600000
milliseconds) before the sweep instant is first rewritten as pending
with the error field removed, and only then goes through the
process-or-skip decision; an in-progress record locked at most 600
seconds ago is left untouched and skipped (no store operation at
all). -/
theorem staleLock_reclamation (now : Int) (jobId : String) (w : JobWorld)
    (r : JobRecord) (t : Int)
    (hget : w.kvGet = .record r) (hst : r.status = "in-progress")
    (hlock : r.lockedAt = some t) :
    (now - t ≤ 600000 → processJob now jobId w = ([], none)) ∧
    (600000 < now - t → w.putStale = .ok () →
      processJob now jobId w =
        (Event.kvPut jobId { r with status := "pending", error := none } ::
           (processEligible jobId w { r with status := "pending", error := none }).1,
         (processEligible jobId w { r with status := "pending", error := none }).2)) := by
  constructor
  · intro hfresh
    have hstale : isStale now r = false := by
      unfold isStale
      rw [hlock]
      simp
      intro _
      omega
    unfold processJob
    rw [hget]
    simp only [hstale, Bool.false_eq_true, if_false]
    unfold processEligible
    rw [hst]
    simp
  · intro hold hput
    have hstale : isStale now r = true := by
      unfold isStale
      rw [hlock, hst]
      simp
      omega
    unfold processJob
    rw [hget]
    simp only [hstale, if_true, hput]

/-- Whether an oracle outcome models a call that did not throw. -/
def exceptOk : Except String Unit → Bool
  | .ok _ => true
  | .error _ => false

/-- The queue-store operations and the stored-record JSON.parse of one
iteration all succeed.  These are exactly the calls of the loop body
that sit outside the try block of jobs.js (the KV read at line 103,
the parse at line 105, the stale-reset put at line 111, the lock put
at line 118) together with the failure-record put at line 173, which
sits inside the catch clause but outside any try. -/
def queueOpsOk (w : JobWorld) : Bool :=
  (match w.kvGet with
   | .throws _ => false
   | .malformed => false
   | _ => true) &&
  exceptOk w.putStale && exceptOk w.putLock && exceptOk w.putFailed

/-- exceptOk forces the ok outcome. -/
theorem exceptOk_eq_ok (e : Except String Unit) (h : exceptOk e = true) : e = .ok () := by
  cases e with
  | ok u => cases u; rfl
  | error m => simp [exceptOk] at h

/-- The catch clause never raises when the final KV put succeeds. -/
theorem handleFailure_no_throw (jobId : String) (w : JobWorld) (locked : JobRecord)
    (e : JobErr) (hf : w.putFailed = .ok ()) :
    (handleFailure jobId w locked e).2 = none := by
  unfold handleFailure
  cases hs : w.saveFailedDoc with
  | ok u => cases u; rw [hf]
  | error pe => rw [hf]

/-- Processing one eligible record never raises when the lock put and
the failure put succeed: generation, validation, durable writes and
queue deletion errors are all caught. -/
theorem processEligible_no_throw (jobId : String) (w : JobWorld) (r : JobRecord)
    (hl : w.putLock = .ok ()) (hf : w.putFailed = .ok ()) :
    (processEligible jobId w r).2 = none := by
  unfold processEligible
  by_cases hp : r.status = "pending"
  · rw [if_pos hp, hl]
    cases ht : tryPhase jobId w with
    | ok evs => rfl
    | error pr =>
      cases pr with
      | mk e evs => exact handleFailure_no_throw jobId w (lockedRecord w r) e hf
  · rw [if_neg hp]

/-- One iteration never raises when its queue operations succeed. -/
theorem processJob_no_throw (now : Int) (jobId : String) (w : JobWorld)
    (h : queueOpsOk w = true) : (processJob now jobId w).2 = none := by
  unfold queueOpsOk at h
  simp only [Bool.and_eq_true] at h
  obtain ⟨⟨⟨hget, hstale⟩, hlock⟩, hfail⟩ := h
  have hstale := exceptOk_eq_ok _ hstale
  have hlock := exceptOk_eq_ok _ hlock
  have hfail := exceptOk_eq_ok _ hfail
  cases hg : w.kvGet with
  | throws m => rw [hg] at hget; simp at hget
  | malformed => rw [hg] at hget; simp at hget
  | absent => simp [processJob, hg]
  | record r =>
    by_cases hs : isStale now r = true
    · cases hpe : processEligible jobId w { r with status := "pending", error := none } with
      | mk evs x =>
        have hx := processEligible_no_throw jobId w
          { r with status := "pending", error := none } hlock hfail
        rw [hpe] at hx
        simp only at hx
        simp [processJob, hg, hs, hstale, hpe, hx]
    · have hx := processEligible_no_throw jobId w r hlock hfail
      simp [processJob, hg, hs]
      simpa using hx

/-- C3 (amended): provided every queue-store read and write of the
sweep succeeds and every stored record parses, every error raised
while processing a record (generation failure or timeout, validation
failure, durable-store writes, queue deletion) is caught, nothing
propagates out of the sweep, and the sweep processes every listed
record in the same pass: its trace is exactly the concatenation of the
per-record traces.  (The unamended claim is refuted by
sweep_propagation_counterexample: a record whose stored value does not
parse, or a failing queue-store call, throws outside the try block and
aborts the sweep.) -/
theorem sweep_catches_processing_errors (now : Int) (jobs : List (String × JobWorld))
    (h : ∀ p ∈ jobs, queueOpsOk p.2 = true) :
    (processPendingJobs now jobs).2 = none ∧
    (processPendingJobs now jobs).1 =
      (jobs.map (fun p => (processJob now p.1 p.2).1)).flatten := by
  induction jobs with
  | nil => exact ⟨rfl, rfl⟩
  | cons p rest ih =>
    cases p with
    | mk a b =>
      have hb : queueOpsOk b = true := h (a, b) (List.mem_cons_self _ _)
      have hrest := ih (fun q hq => h q (List.mem_cons_of_mem _ hq))
      have hnothrow := processJob_no_throw now a b hb
      rw [processPendingJobs_cons]
      cases hab : processJob now a b with
      | mk evs o =>
        rw [hab] at hnothrow
        simp only at hnothrow
        subst hnothrow
        cases hr : processPendingJobs now rest with
        | mk evs2 x =>
          rw [hr] at hrest
          simp only at hrest
          obtain ⟨hx, hevs2⟩ := hrest
          subst hx
          constructor
          · rfl
          · simp [hevs2, hab]

/-- The ZodError message built in jobs.js is never empty. -/
theorem validationMessage_ne_empty (issues : List ZodIssue) :
    validationMessage issues ≠ "" := by
  intro hcontra
  have hlen := congrArg String.length hcontra
  simp [validationMessage, String.length_append] at hlen
  exact absurd hlen.1 (by decide)

/-- The normalized failure message of the catch clause is never empty,
so the firestore wire mapping never nulls it out. -/
theorem errMessage_ne_empty (e : JobErr) : errMessage e ≠ "" := by
  cases e with
  | zodErr issues => exact validationMessage_ne_empty issues
  | genErr m =>
    unfold errMessage
    by_cases hm : m = ""
    · simp [hm]
    · simp [hm]
  | saveErr m =>
    unfold errMessage
    by_cases hm : m = ""
    · simp [hm]
    · simp [hm]
  | delErr m =>
    unfold errMessage
    by_cases hm : m = ""
    · simp [hm]
    · simp [hm]

/-- C2 (amended): for a pending job whose processing attempt fails in
generation (including timeout) or validation, the sweep performs a
terminal durable write with status failed, a non-null error message,
updatedAt equal to the failure timestamp — and completedAt null: the
code passes completedAt: null on the failure path, so completedAt is
set only on completion, not on failure.  (The unamended claim, that
the failed write carries the failure timestamp in completedAt, is
refuted by failedWrite_completedAt_counterexample.) -/
theorem failure_write_terminal (now : Int) (jobId : String) (w : JobWorld)
    (r : JobRecord)
    (hget : w.kvGet = .record r) (hp : r.status = "pending")
    (hlock : w.putLock = .ok ())
    (hfail : (∃ m, w.gen = .error m) ∨
             (∃ raw issues, w.gen = .ok raw ∧ ItinerarySchema.parse raw = .error issues))
    (hsave : w.saveFailedDoc = .ok ()) (hput : w.putFailed = .ok ()) :
    ∃ msg, msg ≠ "" ∧
      processJob now jobId w =
        ([Event.kvPut jobId (lockedRecord w r),
          Event.docWrite jobId
            { status := "failed", updatedAt := w.failTime, completedAt := none,
              error := some msg, itinerary := none },
          Event.kvPut jobId { lockedRecord w r with status := "failed", error := some msg }],
         none) := by
  have hstale : isStale now r = false := by
    unfold isStale
    rw [hp]
    simp
  have htp : ∃ e : JobErr, tryPhase jobId w = .error (e, []) ∧ errMessage e ≠ "" := by
    rcases hfail with ⟨m, hm⟩ | ⟨raw, issues, hraw, hparse⟩
    · exact ⟨.genErr m, by simp [tryPhase, hm], errMessage_ne_empty _⟩
    · exact ⟨.zodErr issues, by simp [tryPhase, hraw, hparse], errMessage_ne_empty _⟩
  obtain ⟨e, htp, hne⟩ := htp
  refine ⟨errMessage e, hne, ?_⟩
  have hpayload : saveItineraryFields "failed" none w.failTime none (some (errMessage e)) =
      { status := "failed", updatedAt := w.failTime, completedAt := none,
        error := some (errMessage e), itinerary := none } := by
    unfold saveItineraryFields
    simp [hne]
  simp [processJob, hget, hstale, processEligible, hp, hlock, htp,
    handleFailure, hsave, hput, hpayload]

/-- Inversion of a successful try block: it happens exactly when
generation, validation, the durable success write and the queue
deletion all succeed, and then its trace is the completed doc write
followed by the queue deletion. -/
theorem tryPhase_ok_inv (jobId : String) (w : JobWorld) (evs : List Event)
    (h : tryPhase jobId w = .ok evs) :
    ∃ raw v, w.gen = .ok raw ∧ ItinerarySchema.parse raw = .ok v ∧
      w.saveDoc = .ok () ∧ w.kvDelete = .ok () ∧
      evs = [Event.docWrite jobId (completedPayload w v), Event.kvDelete jobId] := by
  unfold tryPhase at h
  cases hg : w.gen with
  | error m => simp only [hg] at h; exact absurd h (by simp)
  | ok raw =>
    simp only [hg] at h
    cases hp : ItinerarySchema.parse raw with
    | error issues => simp only [hp] at h; exact absurd h (by simp)
    | ok v =>
      simp only [hp] at h
      cases hsd : w.saveDoc with
      | error m => simp only [hsd] at h; exact absurd h (by simp)
      | ok u =>
        cases u
        simp only [hsd] at h
        cases hkd : w.kvDelete with
        | error m => simp only [hkd] at h; exact absurd h (by simp)
        | ok u2 =>
          cases u2
          simp only [hkd] at h
          injection h with h2
          subst h2
          exact ⟨raw, v, rfl, hp, rfl, rfl, rfl⟩

/-- A try block that threw never performed the queue deletion. -/
theorem tryPhase_error_no_delete (jobId : String) (w : JobWorld) (e : JobErr)
    (evs0 : List Event) (h : tryPhase jobId w = .error (e, evs0)) :
    Event.kvDelete jobId ∉ evs0 := by
  unfold tryPhase at h
  cases hg : w.gen with
  | error m =>
    simp only [hg] at h
    injection h with h2
    injection h2 with ha hb
    subst hb
    simp
  | ok raw =>
    simp only [hg] at h
    cases hp : ItinerarySchema.parse raw with
    | error issues =>
      simp only [hp] at h
      injection h with h2
      injection h2 with ha hb
      subst hb
      simp
    | ok v =>
      simp only [hp] at h
      cases hsd : w.saveDoc with
      | error m =>
        simp only [hsd] at h
        injection h with h2
        injection h2 with ha hb
        subst hb
        simp
      | ok u =>
        cases u
        simp only [hsd] at h
        cases hkd : w.kvDelete with
        | error m =>
          simp only [hkd] at h
          injection h with h2
          injection h2 with ha hb
          subst hb
          simp
        | ok u2 =>
          cases u2
          simp only [hkd] at h
          exact absurd h (by simp)

/-- The catch clause never deletes the queue record. -/
theorem handleFailure_no_delete (jobId : String) (w : JobWorld) (locked : JobRecord)
    (e : JobErr) :
    Event.kvDelete jobId ∉ (handleFailure jobId w locked e).1 := by
  unfold handleFailure
  cases w.saveFailedDoc <;> cases w.putFailed <;> simp

/-- If processing an eligible record deleted the queue record, the run
was the success path: generation and validation succeeded, the durable
completed write succeeded, and the trace is lock put, completed doc
write, queue deletion, in that order. -/
theorem processEligible_delete (jobId : String) (w : JobWorld) (r : JobRecord)
    (hdel : Event.kvDelete jobId ∈ (processEligible jobId w r).1) :
    ∃ raw v, w.gen = .ok raw ∧ ItinerarySchema.parse raw = .ok v ∧
      w.saveDoc = .ok () ∧
      (processEligible jobId w r).1 =
        [Event.kvPut jobId (lockedRecord w r),
         Event.docWrite jobId (completedPayload w v), Event.kvDelete jobId] := by
  unfold processEligible at hdel ⊢
  by_cases hp : r.status = "pending"
  · simp only [if_pos hp] at hdel ⊢
    cases hl : w.putLock with
    | error m => simp only [hl] at hdel; simp at hdel
    | ok u =>
      cases u
      simp only [hl] at hdel ⊢
      cases ht : tryPhase jobId w with
      | ok evs =>
        simp only [ht] at hdel ⊢
        obtain ⟨raw, v, h1, h2, h3, h4, h5⟩ := tryPhase_ok_inv jobId w evs ht
        exact ⟨raw, v, h1, h2, h3, by simp [h5]⟩
      | error pr =>
        cases pr with
        | mk e evs0 =>
          simp only [ht] at hdel
          exfalso
          have hne := tryPhase_error_no_delete jobId w e evs0 ht
          have hnh := handleFailure_no_delete jobId w (lockedRecord w r) e
          simp [List.mem_append] at hdel
          rcases hdel with hdel | hdel
          · exact hne hdel
          · exact hnh hdel
  · simp only [if_neg hp] at hdel
    simp at hdel

/-- C5: whenever a sweep iteration deletes the queue record, the run
was a success: the durable document was written (await confirmed) with
status completed, the Zod-validated itinerary, null error and one
shared timestamp for completedAt and updatedAt, and that write sits
strictly before the queue deletion in the trace; no failure path ever
deletes the queue record (a deletion event only arises with the
success write in front of it). -/
theorem success_write_precedes_delete (now : Int) (jobId : String) (w : JobWorld)
    (events : List Event) (x : Option String)
    (hrun : processJob now jobId w = (events, x))
    (hdel : Event.kvDelete jobId ∈ events) :
    ∃ evs0 raw v,
      w.gen = .ok raw ∧ ItinerarySchema.parse raw = .ok v ∧ w.saveDoc = .ok () ∧
      events = evs0 ++ [Event.docWrite jobId (completedPayload w v), Event.kvDelete jobId] ∧
      Event.kvDelete jobId ∉ evs0 ∧
      (completedPayload w v).status = "completed" ∧
      (completedPayload w v).completedAt = some ((completedPayload w v).updatedAt) ∧
      (completedPayload w v).error = none ∧
      (completedPayload w v).itinerary = some (serializeItinerary v) := by
  have hev : events = (processJob now jobId w).1 := by rw [hrun]
  subst hev
  unfold processJob at hdel ⊢
  cases hg : w.kvGet with
  | throws m => simp only [hg] at hdel; simp at hdel
  | absent => simp only [hg] at hdel; simp at hdel
  | malformed => simp only [hg] at hdel; simp at hdel
  | record r =>
    simp only [hg] at hdel ⊢
    by_cases hs : isStale now r = true
    · simp only [hs, if_true] at hdel ⊢
      cases hps : w.putStale with
      | error m => simp only [hps] at hdel; simp at hdel
      | ok u =>
        cases u
        simp only [hps] at hdel ⊢
        have hdel2 : Event.kvDelete jobId ∈
            (processEligible jobId w { r with status := "pending", error := none }).1 := by
          simp at hdel
          exact hdel
        obtain ⟨raw, v, h1, h2, h3, h4⟩ :=
          processEligible_delete jobId w { r with status := "pending", error := none } hdel2
        refine ⟨[Event.kvPut jobId { r with status := "pending", error := none },
                 Event.kvPut jobId (lockedRecord w { r with status := "pending", error := none })],
                raw, v, h1, h2, h3, ?_, by simp, rfl, rfl, rfl, rfl⟩
        simp [h4]
    · simp only [hs, if_false] at hdel ⊢
      obtain ⟨raw, v, h1, h2, h3, h4⟩ := processEligible_delete jobId w r hdel
      refine ⟨[Event.kvPut jobId (lockedRecord w r)], raw, v, h1, h2, h3, ?_, by simp,
        rfl, rfl, rfl, rfl⟩
      simp [h4]

/-- The only validation the POST handler performs: typeof destination
is string and typeof durationDays is number (index.js line 16). -/
def typeCheckOk (v : Json) : Bool :=
  match getProp v "destination", getProp v "durationDays" with
  | some (.str _), some (.num _) => true
  | _, _ => false

/-- C8 (amended): every queue record the submission endpoint creates
has the request destination as a string and the request durationDays
as a number, with status pending; malformed JSON and wrong field types
are rejected with a 400 client error and create no record.  Emptiness
of destination and integrality or positivity of durationDays are not
checked: submission_accepts_invalid_counterexample shows an empty
destination with durationDays 0 being accepted, refuting the unamended
claim. -/
theorem submission_type_checks (jobId : String) (now : Int) :
    (∀ (payload : Option Json) (jid2 : String) (r : JobRecord),
      handlePost jobId now payload = .accepted jid2 r →
      jid2 = jobId ∧ r.status = "pending" ∧ r.createdAt = now ∧
      r.lockedAt = none ∧ r.error = none ∧
      ∃ v, payload = some v ∧
        getProp v "destination" = some (.str r.destination) ∧
        getProp v "durationDays" = some (.num r.durationDays)) ∧
    handlePost jobId now none = .clientError 400 "Invalid JSON" ∧
    (∀ v : Json, v ≠ .null → typeCheckOk v = false →
      handlePost jobId now (some v) = .clientError 400 "Bad Request") := by
  refine ⟨?_, rfl, ?_⟩
  · intro payload jid2 r h
    cases payload with
    | none => simp [handlePost] at h
    | some v =>
      cases v with
      | null => simp [handlePost] at h
      | str s => simp [handlePost, getProp] at h
      | num q => simp [handlePost, getProp] at h
      | bool b => simp [handlePost, getProp] at h
      | arr l => simp [handlePost, getProp] at h
      | obj fields =>
        cases hd : getField fields "destination" with
        | none => simp [handlePost, getProp, hd] at h
        | some dv =>
          cases hq : getField fields "durationDays" with
          | none => cases dv <;> simp [handlePost, getProp, hd, hq] at h
          | some qv =>
            cases dv <;> cases qv <;> simp [handlePost, getProp, hd, hq] at h
            obtain ⟨h1, h2⟩ := h
            subst h1
            subst h2
            exact ⟨rfl, rfl, rfl, rfl, rfl,
              .obj fields, rfl, by simp [getProp, hd], by simp [getProp, hq]⟩
  · intro v hnull htc
    cases v with
    | null => exact absurd rfl hnull
    | str s => simp [handlePost, getProp]
    | num q => simp [handlePost, getProp]
    | bool b => simp [handlePost, getProp]
    | arr l => simp [handlePost, getProp]
    | obj fields =>
      unfold typeCheckOk at htc
      cases hd : getField fields "destination" with
      | none => simp [handlePost, getProp, hd]
      | some dv =>
        cases hq : getField fields "durationDays" with
        | none => cases dv <;> simp [handlePost, getProp, hd, hq]
        | some qv =>
          cases dv <;> cases qv <;> simp [getProp, hd, hq] at htc <;>
            simp [handlePost, getProp, hd, hq]

/-- A serialized parsed activity carries exactly the declared keys. -/
theorem activityDeclared_serialize (a : Activity) :
    activityDeclared (serializeActivity a) = true := rfl

/-- A serialized parsed day-plan carries exactly the declared keys. -/
theorem dayDeclared_serialize (d : DayItinerary) :
    dayDeclared (serializeDay d) = true := by
  unfold dayDeclared serializeDay
  simp [getField, activityDeclared_serialize]

/-- A serialized parsed itinerary carries only declared keys. -/
theorem itineraryDeclared_serialize (v : List DayItinerary) :
    itineraryDeclared (serializeItinerary v) = true := by
  unfold itineraryDeclared serializeItinerary
  simp [dayDeclared_serialize]

/-- C9: the itinerary persisted on the success path is the Zod-parsed
value, not the raw generator output: the success doc write stores the
serialization of the parsed value, and that serialization contains
exactly the declared fields (day, theme, activities / time,
description, location) at every level, so any extra properties of the
raw value are stripped. -/
theorem stored_itinerary_is_parsed_value (j : Json) (v : List DayItinerary)
    (h : ItinerarySchema.parse j = .ok v) :
    itineraryDeclared (serializeItinerary v) = true ∧
    ∀ (jobId : String) (w : JobWorld),
      w.gen = .ok j → w.saveDoc = .ok () → w.kvDelete = .ok () →
      tryPhase jobId w =
        .ok [Event.docWrite jobId (completedPayload w v), Event.kvDelete jobId] := by
  refine ⟨itineraryDeclared_serialize v, ?_⟩
  intro jobId w hg hs hd
  simp [tryPhase, hg, h, hs, hd]

/-- Issues of the left sub-parse survive into the combination. -/
theorem zipIssues_left_mem {α β} (a : Except (List ZodIssue) α)
    (b : Except (List ZodIssue) β) (I : List ZodIssue) (ha : a = .error I) :
    ∃ E, zipIssues a b = .error E ∧ ∀ e ∈ I, e ∈ E := by
  subst ha
  cases b with
  | ok y => exact ⟨I, rfl, fun e he => he⟩
  | error f => exact ⟨I ++ f, rfl, fun e he => List.mem_append_left f he⟩

/-- Issues of the right sub-parse survive into the combination. -/
theorem zipIssues_right_mem {α β} (a : Except (List ZodIssue) α)
    (b : Except (List ZodIssue) β) (I : List ZodIssue) (hb : b = .error I) :
    ∃ E, zipIssues a b = .error E ∧ ∀ e ∈ I, e ∈ E := by
  subst hb
  cases a with
  | ok x => exact ⟨I, rfl, fun e he => he⟩
  | error f => exact ⟨f ++ I, rfl, fun e he => List.mem_append_right f he⟩

/-- An issue of any failing array element survives into the error of
the whole element pass, whatever the other elements do. -/
theorem parseElems_err_mem {α} (p : List String → Json → Except (List ZodIssue) α)
    (path : List String) :
    ∀ (l : List Json) (start i : Nat) (j : Json) (I : List ZodIssue),
      l[i]? = some j → p (path ++ [toString (start + i)]) j = .error I →
      ∃ E, parseElems p path l start = .error E ∧ ∀ e ∈ I, e ∈ E := by
  intro l
  induction l with
  | nil => intro start i j I hget _; simp at hget
  | cons x rest ih =>
    intro start i j I hget hp
    cases i with
    | zero =>
      simp at hget
      subst hget
      rw [Nat.add_zero] at hp
      obtain ⟨E, hE, hmem⟩ := zipIssues_left_mem _ (parseElems p path rest (start + 1)) I hp
      refine ⟨E, ?_, hmem⟩
      unfold parseElems
      rw [hE]
      rfl
    | succ i2 =>
      have hget2 : rest[i2]? = some j := by simpa using hget
      have harith : start + (i2 + 1) = (start + 1) + i2 := by omega
      rw [harith] at hp
      obtain ⟨E0, hE0, hm0⟩ := ih (start + 1) i2 j I hget2 hp
      obtain ⟨E, hE, hmem⟩ :=
        zipIssues_right_mem (p (path ++ [toString start]) x) _ E0 hE0
      refine ⟨E, ?_, fun e he => hmem e (hm0 e he)⟩
      unfold parseElems
      rw [hE]
      rfl

/-- Specialization of parseElems_err_mem to the initial index zero. -/
theorem parseElems_err_mem0 {α} (p : List String → Json → Except (List ZodIssue) α)
    (path : List String) (l : List Json) (i : Nat) (j : Json) (I : List ZodIssue)
    (hget : l[i]? = some j) (hp : p (path ++ [toString i]) j = .error I) :
    ∃ E, parseElems p path l 0 = .error E ∧ ∀ e ∈ I, e ∈ E := by
  apply parseElems_err_mem p path l 0 i j I hget
  rw [Nat.zero_add]
  exact hp

/-- An element-pass failure is the array failure. -/
theorem parseArr_err {α} (p : List String → Json → Except (List ZodIssue) α)
    (path : List String) (l : List Json) (E : List ZodIssue)
    (h : parseElems p path l 0 = .error E) :
    parseArr p path (.arr l) = .error E := by
  simp only [parseArr]
  rw [h]

/-- A failing day field keeps its issues in the day-plan error. -/
theorem parseDayItinerary_day_mem (path : List String) (fields : List (String × Json))
    (I : List ZodIssue) (h : parseField parseDayNum path fields "day" = .error I) :
    ∃ E, parseDayItinerary path (.obj fields) = .error E ∧ ∀ e ∈ I, e ∈ E := by
  obtain ⟨E1, hE1, hm1⟩ :=
    zipIssues_left_mem _ (parseField parseStr path fields "theme") I h
  obtain ⟨E, hE, hm⟩ :=
    zipIssues_left_mem _ (parseField (parseArr parseActivity) path fields "activities") E1 hE1
  refine ⟨E, ?_, fun e he => hm e (hm1 e he)⟩
  simp only [parseDayItinerary]
  rw [hE]

/-- A failing activities field keeps its issues in the day-plan error. -/
theorem parseDayItinerary_acts_mem (path : List String) (fields : List (String × Json))
    (I : List ZodIssue)
    (h : parseField (parseArr parseActivity) path fields "activities" = .error I) :
    ∃ E, parseDayItinerary path (.obj fields) = .error E ∧ ∀ e ∈ I, e ∈ E := by
  obtain ⟨E, hE, hm⟩ :=
    zipIssues_right_mem
      (zipIssues (parseField parseDayNum path fields "day")
        (parseField parseStr path fields "theme")) _ I h
  refine ⟨E, ?_, hm⟩
  simp only [parseDayItinerary]
  rw [hE]

/-- A failing location field keeps its issues in the activity error. -/
theorem parseActivity_location_mem (path : List String) (fields : List (String × Json))
    (I : List ZodIssue) (h : parseField parseStr path fields "location" = .error I) :
    ∃ E, parseActivity path (.obj fields) = .error E ∧ ∀ e ∈ I, e ∈ E := by
  obtain ⟨E, hE, hm⟩ :=
    zipIssues_right_mem
      (zipIssues (parseField parseStr path fields "time")
        (parseField parseStr path fields "description")) _ I h
  refine ⟨E, ?_, hm⟩
  simp only [parseActivity]
  rw [hE]

/-- A day number below one or non-integral always fails with an issue
at its own path. -/
theorem parseDayNum_bad (path : List String) (q : Rat) (hbad : q < 1 ∨ q.den ≠ 1) :
    ∃ I msg, parseDayNum path (.num q) = .error I ∧ ZodIssue.mk path msg ∈ I := by
  unfold parseDayNum
  by_cases hden : q.den = 1
  · have hq : ¬ (1 ≤ q) := by
      rcases hbad with h | h
      · exact not_le.mpr h
      · exact absurd hden h
    refine ⟨[⟨path, "Number must be greater than or equal to 1"⟩],
      "Number must be greater than or equal to 1", ?_, List.mem_singleton_self _⟩
    simp [hden, hq]
  · by_cases hq : 1 ≤ q
    · refine ⟨[⟨path, "Expected integer, received float"⟩],
        "Expected integer, received float", ?_, List.mem_singleton_self _⟩
      simp [hden, hq]
    · refine ⟨[⟨path, "Expected integer, received float"⟩,
               ⟨path, "Number must be greater than or equal to 1"⟩],
        "Expected integer, received float", ?_, List.mem_cons_self _ _⟩
      simp [hden, hq]

/-- Every joined element occurs verbatim inside the joined string. -/
theorem joinSemi_mem_infix (l : List String) (a : String) (h : a ∈ l) :
    ∃ s1 s2, joinSemi l = s1 ++ a ++ s2 := by
  induction l with
  | nil => simp at h
  | cons x rest ih =>
    rcases List.mem_cons.mp h with rfl | h2
    · cases rest with
      | nil => exact ⟨"", "", by simp [joinSemi]⟩
      | cons y ys =>
        refine ⟨"", "; " ++ joinSemi (y :: ys), ?_⟩
        show joinSemi (a :: y :: ys) = "" ++ a ++ ("; " ++ joinSemi (y :: ys))
        simp [joinSemi, String.append_assoc]
    · cases rest with
      | nil => simp at h2
      | cons y ys =>
        obtain ⟨s1, s2, hs⟩ := ih h2
        refine ⟨x ++ "; " ++ s1, s2, ?_⟩
        show joinSemi (x :: y :: ys) = x ++ "; " ++ s1 ++ a ++ s2
        simp only [joinSemi, hs]
        simp [String.append_assoc]

/-- C6: validation rejects an empty day list (with the minimum-length
issue at the root path), any day-plan whose day is below 1 or not an
integer (with an issue at the day path of that element), any day-plan
with zero activities (minimum-length issue at its activities path) and
any activity missing location (a Required issue at its full path);
each such violation is collected into the error list regardless of
what the other elements and fields contain, so all violations are
reported together; and the normalized failure message contains, for
every collected issue, its dot-joined path followed by its message. -/
theorem validation_rejects_and_collects :
    (ItinerarySchema.parse (Json.arr []) =
      .error [⟨[], "Array must contain at least 1 element(s)"⟩]) ∧
    (∀ (days : List Json) (i : Nat) (fields : List (String × Json)) (q : Rat),
      days[i]? = some (Json.obj fields) →
      getField fields "day" = some (Json.num q) →
      (q < 1 ∨ q.den ≠ 1) →
      ∃ E msg, ItinerarySchema.parse (Json.arr days) = .error E ∧
        ZodIssue.mk [toString i, "day"] msg ∈ E) ∧
    (∀ (days : List Json) (i : Nat) (fields : List (String × Json)),
      days[i]? = some (Json.obj fields) →
      getField fields "activities" = some (Json.arr []) →
      ∃ E, ItinerarySchema.parse (Json.arr days) = .error E ∧
        ZodIssue.mk [toString i, "activities"]
          "Array must contain at least 1 element(s)" ∈ E) ∧
    (∀ (days : List Json) (i : Nat) (fields : List (String × Json))
        (acts : List Json) (k : Nat) (afields : List (String × Json)),
      days[i]? = some (Json.obj fields) →
      getField fields "activities" = some (Json.arr acts) →
      acts[k]? = some (Json.obj afields) →
      getField afields "location" = none →
      ∃ E, ItinerarySchema.parse (Json.arr days) = .error E ∧
        ZodIssue.mk [toString i, "activities", toString k, "location"] "Required" ∈ E) ∧
    (∀ (issues : List ZodIssue) (e : ZodIssue), e ∈ issues →
      ∃ s1 s2, validationMessage issues = s1 ++ issueLine e ++ s2) := by
  refine ⟨rfl, ?_, ?_, ?_, ?_⟩
  · intro days i fields q hi hday hbad
    obtain ⟨I, msg, hnum, hmem⟩ := parseDayNum_bad [toString i, "day"] q hbad
    have hfield : parseField parseDayNum [toString i] fields "day" = .error I := by
      unfold parseField
      rw [hday]
      exact hnum
    obtain ⟨E1, hE1, hm1⟩ := parseDayItinerary_day_mem [toString i] fields I hfield
    obtain ⟨E, hE, hm⟩ := parseElems_err_mem0 parseDayItinerary [] days i _ E1 hi hE1
    exact ⟨E, msg, parseArr_err _ _ _ _ hE, hm _ (hm1 _ hmem)⟩
  · intro days i fields hi hacts
    have hfield : parseField (parseArr parseActivity) [toString i] fields "activities" =
        .error [⟨[toString i, "activities"], "Array must contain at least 1 element(s)"⟩] := by
      unfold parseField
      rw [hacts]
      rfl
    obtain ⟨E1, hE1, hm1⟩ := parseDayItinerary_acts_mem [toString i] fields _ hfield
    obtain ⟨E, hE, hm⟩ := parseElems_err_mem0 parseDayItinerary [] days i _ E1 hi hE1
    exact ⟨E, parseArr_err _ _ _ _ hE, hm _ (hm1 _ (List.mem_singleton_self _))⟩
  · intro days i fields acts k afields hi hacts hk hloc
    have hfield : parseField parseStr [toString i, "activities", toString k] afields
        "location" =
        .error [⟨[toString i, "activities", toString k, "location"], "Required"⟩] := by
      unfold parseField
      rw [hloc]
      rfl
    obtain ⟨I1, hI1, hm1⟩ :=
      parseActivity_location_mem [toString i, "activities", toString k] afields _ hfield
    obtain ⟨I2, hI2, hm2⟩ :=
      parseElems_err_mem0 parseActivity [toString i, "activities"] acts k _ I1 hk hI1
    have hArr : parseArr parseActivity [toString i, "activities"] (.arr acts) = .error I2 :=
      parseArr_err _ _ _ _ hI2
    have hfield2 : parseField (parseArr parseActivity) [toString i] fields "activities" =
        .error I2 := by
      unfold parseField
      rw [hacts]
      exact hArr
    obtain ⟨I3, hI3, hm3⟩ := parseDayItinerary_acts_mem [toString i] fields _ hfield2
    obtain ⟨E, hE, hm⟩ := parseElems_err_mem0 parseDayItinerary [] days i _ I3 hi hI3
    exact ⟨E, parseArr_err _ _ _ _ hE,
      hm _ (hm3 _ (hm2 _ (hm1 _ (List.mem_singleton_self _))))⟩
  · intro issues e he
    obtain ⟨s1, s2, hs⟩ := joinSemi_mem_infix (issues.map issueLine) (issueLine e)
      (List.mem_map_of_mem _ he)
    refine ⟨"Validation error: " ++ s1, s2, ?_⟩
    unfold validationMessage
    rw [hs]
    simp [String.append_assoc]

/-- A world whose generation attempt fails. -/
def exampleWorldGenFail : JobWorld := { exampleWorldOk with gen := .error "boom" }

/-- A world whose queue record is missing when read. -/
def exampleWorldAbsent : JobWorld := { exampleWorldOk with kvGet := .absent }

/-- A stale in-progress record and its world. -/
def exampleStale : JobRecord := ⟨"Tokyo, Japan", 5, "in-progress", 0, some 100, some "old"⟩

def exampleWorldStale : JobWorld := { exampleWorldOk with kvGet := .record exampleStale }

/-- A freshly locked in-progress record and its world. -/
def exampleFresh : JobRecord := ⟨"Tokyo, Japan", 5, "in-progress", 0, some 999000, none⟩

def exampleWorldFresh : JobWorld := { exampleWorldOk with kvGet := .record exampleFresh }

theorem failure_write_terminal_witness :
    ∃ msg, msg ≠ "" ∧
      processJob 1000 "job1" exampleWorldGenFail =
        ([Event.kvPut "job1" (lockedRecord exampleWorldGenFail examplePending),
          Event.docWrite "job1"
            { status := "failed", updatedAt := 30, completedAt := none,
              error := some msg, itinerary := none },
          Event.kvPut "job1"
            { lockedRecord exampleWorldGenFail examplePending with
              status := "failed"
              error := some msg }],
         none) :=
  failure_write_terminal 1000 "job1" exampleWorldGenFail examplePending rfl rfl rfl
    (Or.inl ⟨"boom", rfl⟩) rfl rfl

theorem sweep_catches_processing_errors_witness :
    (processPendingJobs 1000 [("a", exampleWorldGenFail), ("b", exampleWorldOk)]).2 = none ∧
    (processPendingJobs 1000 [("a", exampleWorldGenFail), ("b", exampleWorldOk)]).1 =
      ([("a", exampleWorldGenFail), ("b", exampleWorldOk)].map
        (fun p => (processJob 1000 p.1 p.2).1)).flatten := by
  apply sweep_catches_processing_errors
  intro p hp
  simp at hp
  rcases hp with rfl | rfl <;> rfl

theorem staleLock_reclamation_witness :
    processJob 1000000 "j" exampleWorldFresh = ([], none) ∧
    processJob 1000000 "j" exampleWorldStale =
      (Event.kvPut "j" { exampleStale with status := "pending", error := none } ::
         (processEligible "j" exampleWorldStale
           { exampleStale with status := "pending", error := none }).1,
       (processEligible "j" exampleWorldStale
           { exampleStale with status := "pending", error := none }).2) := by
  constructor
  · exact (staleLock_reclamation 1000000 "j" exampleWorldFresh exampleFresh 999000
      rfl rfl rfl).1 (by decide)
  · exact (staleLock_reclamation 1000000 "j" exampleWorldStale exampleStale 100
      rfl rfl rfl).2 (by decide) rfl

theorem success_write_precedes_delete_witness :
    ∃ evs0 raw v,
      exampleWorldOk.gen = .ok raw ∧ ItinerarySchema.parse raw = .ok v ∧
      exampleWorldOk.saveDoc = .ok () ∧
      (processJob 1000 "job1" exampleWorldOk).1 =
        evs0 ++ [Event.docWrite "job1" (completedPayload exampleWorldOk v),
                 Event.kvDelete "job1"] ∧
      Event.kvDelete "job1" ∉ evs0 ∧
      (completedPayload exampleWorldOk v).status = "completed" ∧
      (completedPayload exampleWorldOk v).completedAt =
        some ((completedPayload exampleWorldOk v).updatedAt) ∧
      (completedPayload exampleWorldOk v).error = none ∧
      (completedPayload exampleWorldOk v).itinerary = some (serializeItinerary v) := by
  apply success_write_precedes_delete 1000 "job1" exampleWorldOk
    (processJob 1000 "job1" exampleWorldOk).1 (processJob 1000 "job1" exampleWorldOk).2 rfl
  have htrace : (processJob 1000 "job1" exampleWorldOk).1 =
      [Event.kvPut "job1" (lockedRecord exampleWorldOk examplePending),
       Event.docWrite "job1" (completedPayload exampleWorldOk exampleParsed),
       Event.kvDelete "job1"] := rfl
  rw [htrace]
  exact List.Mem.tail _ (List.Mem.tail _ (List.Mem.head _))

/-- A generated value with day 0 and an activity missing location. -/
def exampleBadDays : List Json :=
  [.obj [("day", .num 0), ("theme", .str "t"),
         ("activities", .arr [.obj [("time", .str "9"), ("description", .str "d")]])]]

theorem validation_rejects_and_collects_witness :
    (∃ E msg, ItinerarySchema.parse (Json.arr exampleBadDays) = .error E ∧
      ZodIssue.mk ["0", "day"] msg ∈ E) ∧
    (∃ E, ItinerarySchema.parse (Json.arr exampleBadDays) = .error E ∧
      ZodIssue.mk ["0", "activities", "0", "location"] "Required" ∈ E) := by
  constructor
  · exact validation_rejects_and_collects.2.1 exampleBadDays 0
      [("day", .num 0), ("theme", .str "t"),
       ("activities", .arr [.obj [("time", .str "9"), ("description", .str "d")]])]
      0 rfl rfl (Or.inl (by decide))
  · exact validation_rejects_and_collects.2.2.2.1 exampleBadDays 0
      [("day", .num 0), ("theme", .str "t"),
       ("activities", .arr [.obj [("time", .str "9"), ("description", .str "d")]])]
      [.obj [("time", .str "9"), ("description", .str "d")]] 0
      [("time", .str "9"), ("description", .str "d")]
      rfl rfl rfl rfl

/-- A well-typed POST payload. -/
def examplePostPayload : Json :=
  .obj [("destination", .str "Tokyo, Japan"), ("durationDays", .num 5)]

theorem submission_type_checks_witness :
    ("job1" = "job1" ∧
     (⟨"Tokyo, Japan", 5, "pending", 7, none, none⟩ : JobRecord).status = "pending" ∧
     (⟨"Tokyo, Japan", 5, "pending", 7, none, none⟩ : JobRecord).createdAt = 7 ∧
     (⟨"Tokyo, Japan", 5, "pending", 7, none, none⟩ : JobRecord).lockedAt = none ∧
     (⟨"Tokyo, Japan", 5, "pending", 7, none, none⟩ : JobRecord).error = none ∧
     ∃ v, some examplePostPayload = some v ∧
       getProp v "destination" =
         some (.str (⟨"Tokyo, Japan", 5, "pending", 7, none, none⟩ : JobRecord).destination) ∧
       getProp v "durationDays" =
         some (.num (⟨"Tokyo, Japan", 5, "pending", 7, none, none⟩ : JobRecord).durationDays)) ∧
    handlePost "job1" 7 (some (Json.str "x")) = .clientError 400 "Bad Request" := by
  constructor
  · exact (submission_type_checks "job1" 7).1 (some examplePostPayload) "job1"
      ⟨"Tokyo, Japan", 5, "pending", 7, none, none⟩ rfl
  · exact (submission_type_checks "job1" 7).2.2 (Json.str "x") (by simp) rfl

/-- exampleRaw with extra undeclared properties at both levels. -/
def exampleRawExtra : Json :=
  .arr [.obj [("day", .num 1), ("theme", .str "Old town"),
              ("activities", .arr [.obj [("time", .str "09:00"),
                                         ("description", .str "walk"),
                                         ("location", .str "center"),
                                         ("rating", .num 5)]]),
              ("note", .str "skip the queue")]]

theorem stored_itinerary_is_parsed_value_witness :
    itineraryDeclared (serializeItinerary exampleParsed) = true ∧
    tryPhase "job1" { exampleWorldOk with gen := .ok exampleRawExtra } =
      .ok [Event.docWrite "job1"
             (completedPayload { exampleWorldOk with gen := .ok exampleRawExtra } exampleParsed),
           Event.kvDelete "job1"] := by
  have h := stored_itinerary_is_parsed_value exampleRawExtra exampleParsed rfl
  exact ⟨h.1, h.2 "job1" { exampleWorldOk with gen := .ok exampleRawExtra } rfl rfl rfl⟩

theorem sweep_skips_missing_record_witness :
    processJob 1000 "gone" exampleWorldAbsent = ([], none) ∧
    processPendingJobs 1000
      [("a", exampleWorldOk), ("gone", exampleWorldAbsent), ("b", exampleWorldGenFail)] =
      processPendingJobs 1000 [("a", exampleWorldOk), ("b", exampleWorldGenFail)] :=
  sweep_skips_missing_record 1000 [("a", exampleWorldOk)] [("b", exampleWorldGenFail)]
    "gone" exampleWorldAbsent rfl
